import Mathlib

/-!
Shallow embedding of the game-boy emulator core (Rust sources under
`src/core/src/`) and proofs about it.  Machine integers are modelled as
`Nat` with explicit wrap-around (`% 256`, `% 65536`) where the Rust code
wraps; Rust panics (`unreachable!`, failed slice indexing, the assertion
inside `bit_field::set_bits`, `unwrap` on an `Err`) are modelled as
`Option.none`; `Vec<Interrupt>` results become `List Interrupt`; the
serial port's stdout sink becomes an explicit list of emitted bytes.
-/

namespace GB

/-! ## Bit manipulation helpers (semantics of the `bit_field` crate)

`BitField::get_bit(i)`, `get_bits(lo..hi)`, `set_bit(i, b)` and
`set_bits(lo..hi, v)` on `u8`.  Ranges are half-open, as in Rust.
`set_bits` asserts that the value fits in the range, hence the `Option`
variant `setBitsChecked`. -/

/-- Bit `i` of `v`, as `bit_field`'s `get_bit`. -/
def getBit (v i : Nat) : Bool := v.testBit i

/-- Bits `[lo, hi)` of `v`, as `bit_field`'s `get_bits(lo..hi)`. -/
def getBits (v lo hi : Nat) : Nat := v / 2 ^ lo % 2 ^ (hi - lo)

/-- Clear bit `i` of `v`. -/
def clearBit (v i : Nat) : Nat := v % 2 ^ i + v / 2 ^ (i + 1) * 2 ^ (i + 1)

/-- Set bit `i` of `v` to `b`, as `bit_field`'s `set_bit`. -/
def setBit (v i : Nat) (b : Bool) : Nat :=
  clearBit v i + (if b then 2 ^ i else 0)

/-- Replace bits `[lo, hi)` of `v` by `x`, assuming `x < 2 ^ (hi - lo)`. -/
def setBitsRaw (v lo hi x : Nat) : Nat :=
  v % 2 ^ lo + v / 2 ^ hi * 2 ^ hi + x * 2 ^ lo

/-- Replace bits `[lo, hi)` of `v` by `x`; `none` models the panic of the
assertion in `bit_field::set_bits` when the value does not fit. -/
def setBitsChecked (v lo hi x : Nat) : Option Nat :=
  if x < 2 ^ (hi - lo) then some (setBitsRaw v lo hi x) else none

/-- Number of trailing zero bits of a byte, as `u8::trailing_zeros`
(8 for the value 0). -/
def trailingZeros8 (t : Nat) : Nat :=
  if t.testBit 0 then 0
  else if t.testBit 1 then 1
  else if t.testBit 2 then 2
  else if t.testBit 3 then 3
  else if t.testBit 4 then 4
  else if t.testBit 5 then 5
  else if t.testBit 6 then 6
  else if t.testBit 7 then 7
  else 8

/-! ## Interrupts (`src/core/src/interrupts.rs`) -/

/-- The `Interrupt` enum. -/
inductive Interrupt where
  | vblank
  | lcdstat
  | timer
  | serial
  | joypad
  deriving DecidableEq, Repr

/-- The `u8` value of an interrupt (`impl From<Interrupt> for u8`). -/
def Interrupt.toMask : Interrupt → Nat
  | .vblank => 0b00000001
  | .lcdstat => 0b00000010
  | .timer => 0b00000100
  | .serial => 0b00001000
  | .joypad => 0b00010000

/-- The `Interrupts` struct.  The Rust field `r#if` is called `iflag`
here because `if` is a reserved word in Lean. -/
structure InterruptsState where
  iflag : Nat
  ie : Nat
  deriving Repr

/-- `Interrupts::new`. -/
def interruptsNew : InterruptsState := { iflag := 0, ie := 0 }

/-- `Interrupts::request`: set the interrupt's bit in IF. -/
def interruptsRequest (s : InterruptsState) (i : Interrupt) : InterruptsState :=
  { s with iflag := s.iflag ||| i.toMask }

/-! ## Timer (`src/core/src/timer.rs`) -/

/-- The `Timer` struct. -/
structure TimerState where
  div : Nat
  tima : Nat
  tma : Nat
  tac : Nat
  dividerCycles : Nat
  timerCycles : Nat
  deriving Repr

/-- `Timer::new`. -/
def timerNew : TimerState :=
  { div := 0, tima := 0, tma := 0, tac := 0, dividerCycles := 0, timerCycles := 0 }

/-- The `while self.divider_cycles >= 256` loop of `Timer::step_divider`:
returns the final `(div, divider_cycles)`. -/
def stepDividerLoop (div dc : Nat) : Nat × Nat :=
  if 256 ≤ dc then stepDividerLoop ((div + 1) % 256) (dc - 256) else (div, dc)
termination_by dc
decreasing_by omega

/-- `Timer::step_divider`. -/
def stepDivider (t : TimerState) (cycles : Nat) : TimerState :=
  let p := stepDividerLoop t.div (t.dividerCycles + cycles)
  { t with div := p.1, dividerCycles := p.2 }

/-- `Timer::timer_enabled`: TAC bit 2. -/
def timerEnabled (t : TimerState) : Bool := getBit t.tac 2

/-- `Timer::get_freq`.  Note that the selector is `tac.get_bits(0..1)`,
i.e. only bit 0 of TAC, so only the `0b00` and `0b01` arms are
reachable; the `none` models the `unreachable!()` arm. -/
def getFreq (t : TimerState) : Option Nat :=
  match getBits t.tac 0 1 with
  | 0b00 => some 1024
  | 0b01 => some 16
  | 0b10 => some 64
  | 0b11 => some 256
  | _ => none

/-- The `while self.timer_cycles >= freq` loop of `Timer::step_timer`:
returns the final `(tima, timer_cycles, has_overflown)`.  `tac` is not
written inside the loop, so `get_freq` is a loop constant and is passed
in as `freq`; the loop only runs when `0 < freq` (always true for the
values `get_freq` produces), which also makes it terminating. -/
def stepTimerLoop (freq tma : Nat) (tima tc : Nat) (over : Bool) : Nat × Nat × Bool :=
  if 0 < freq ∧ freq ≤ tc then
    if 256 ≤ tima + 1 then stepTimerLoop freq tma tma (tc - freq) true
    else stepTimerLoop freq tma (tima + 1) (tc - freq) over
  else (tima, tc, over)
termination_by tc
decreasing_by all_goals omega

/-- `Timer::step_timer`: returns the updated timer and `has_overflown`. -/
def stepTimer (t : TimerState) (cycles : Nat) : Option (TimerState × Bool) :=
  (getFreq t).map fun freq =>
    let r := stepTimerLoop freq t.tma t.tima (t.timerCycles + cycles) false
    ({ t with tima := r.1, timerCycles := r.2.1 }, r.2.2)

/-- `Timer::step`: step the divider, then (if TAC bit 2 is set) the
timer, pushing a single Timer interrupt if any overflow happened. -/
def timerStep (t : TimerState) (cycles : Nat) : Option (TimerState × List Interrupt) :=
  let t := stepDivider t cycles
  if timerEnabled t then
    (stepTimer t cycles).map fun r =>
      (r.1, if r.2 then [Interrupt.timer] else [])
  else
    some (t, [])

/-! ## Serial (`src/core/src/serial.rs`)

The `print!` to the stdout sink is modelled by returning the list of
emitted bytes next to the interrupt list. -/

/-- The `Serial` struct. -/
structure SerialState where
  sb : Nat
  sc : Nat
  transferCycles : Nat
  deriving Repr, DecidableEq

/-- `Serial::new`. -/
def serialNew : SerialState := { sb := 0, sc := 0, transferCycles := 0 }

/-- `Serial::step`: returns the new state, the bytes written to the
sink, and the raised interrupts. -/
def serialStep (s : SerialState) (cycles : Nat) : SerialState × List Nat × List Interrupt :=
  if s.sc = 0x81 then
    let tc := s.transferCycles + cycles
    if 8 ≤ tc then
      ({ sb := 0xFF, sc := 0x01, transferCycles := 0 }, [s.sb], [Interrupt.serial])
    else
      ({ s with transferCycles := tc }, [], [])
  else (s, [], [])

/-! ## ROM (`src/core/src/rom.rs`)

The ROM's byte vector is modelled as an index function together with
its length; `Index<usize> for ROM` panics out of bounds, hence the
`Option` in `romRead`. -/

/-- The `ROM` byte vector. -/
structure ROMState where
  data : Nat → Nat
  size : Nat

/-- Indexing into the ROM (`rom[i]`); `none` models the out-of-bounds
panic of `Vec` indexing. -/
def romRead (r : ROMState) (i : Nat) : Option Nat :=
  if i < r.size then some (r.data i) else none

/-! ## Cartridge and memory bank controllers (`src/core/src/cartridge.rs`) -/

/-- The `BankMode` enum of MBC1. -/
inductive BankMode where
  | rom
  | ram
  deriving DecidableEq, Repr

/-- The `MBC1` struct.  The `ram` vector is an index function plus its
length (`ram_size` from the header). -/
structure MBC1State where
  ram : Nat → Nat
  ramSize : Nat
  ramEnabled : Bool
  romBank : Nat
  ramBank : Nat
  bankMode : BankMode

/-- `MBC1::new`. -/
def mbc1New (ramSize : Nat) : MBC1State :=
  { ram := fun _ => 0, ramSize := ramSize, ramEnabled := false,
    romBank := 1, ramBank := 0, bankMode := BankMode.rom }

/-- The mapper variants: `MBC0` (the trait's default methods) or `MBC1`. -/
inductive MBC where
  | mbc0
  | mbc1 (m : MBC1State)

/-- The `Cartridge` struct. -/
structure Cartridge where
  rom : ROMState
  mbc : MBC

/-- The default `MemoryBankController::read_byte` used by `MBC0`:
`rom[addr]` for `0x0000..=0x7FFF`, `unreachable!()` otherwise. -/
def mbc0ReadByte (rom : ROMState) (address : Nat) : Option Nat :=
  if address ≤ 0x7FFF then romRead rom address else none

/-- `MBC1`'s `read_byte`. -/
def mbc1ReadByte (m : MBC1State) (rom : ROMState) (address : Nat) : Option Nat :=
  if address ≤ 0x3FFF then
    romRead rom address
  else if address ≤ 0x7FFF then
    let offset := m.romBank * 0x4000
    romRead rom (offset + address - 0x4000)
  else if 0xA000 ≤ address ∧ address ≤ 0xBFFF then
    if !m.ramEnabled then some 0xFF
    else
      let offset := m.ramBank * 0x2000
      if offset + address - 0xA000 < m.ramSize then some (m.ram (offset + address - 0xA000))
      else none
  else none

/-- `MBC1`'s `write_byte`.  `none` models the panics: the fit assertion
inside `bit_field::set_bits`, the two `unreachable!()` arms, and
out-of-bounds RAM indexing. -/
def mbc1WriteByte (m : MBC1State) (address value : Nat) : Option MBC1State :=
  if address ≤ 0x1FFF then
    some { m with ramEnabled := getBits value 0 4 = 0x0A }
  else if address ≤ 0x3FFF then
    (setBitsChecked m.romBank 0 5 value).map fun rb => { m with romBank := rb }
  else if address ≤ 0x5FFF then
    match m.bankMode with
    | BankMode.rom => (setBitsChecked m.romBank 5 6 value).map fun rb => { m with romBank := rb }
    | BankMode.ram => if value ≤ 0x03 then some { m with ramBank := value } else none
  else if address ≤ 0x7FFF then
    match value with
    | 0x00 => some { m with bankMode := BankMode.rom }
    | 0x01 => some { m with bankMode := BankMode.ram }
    | _ => none
  else if 0xA000 ≤ address ∧ address ≤ 0xBFFF then
    if !m.ramEnabled then some m
    else
      let offset := m.ramBank * 0x2000
      if offset + address - 0xA000 < m.ramSize then
        some { m with ram := Function.update m.ram (offset + address - 0xA000) value }
      else none
  else none

/-- `Cartridge::read_byte`, dispatching on the mapper. -/
def cartridgeReadByte (c : Cartridge) (address : Nat) : Option Nat :=
  match c.mbc with
  | MBC.mbc0 => mbc0ReadByte c.rom address
  | MBC.mbc1 m => mbc1ReadByte m c.rom address

/-- `Cartridge::write_byte`, dispatching on the mapper (`MBC0` uses the
trait's default `write_byte`, a no-op). -/
def cartridgeWriteByte (c : Cartridge) (address value : Nat) : Option Cartridge :=
  match c.mbc with
  | MBC.mbc0 => some c
  | MBC.mbc1 m => (mbc1WriteByte m address value).map fun m' => { c with mbc := MBC.mbc1 m' }

/-! ## Video / PPU state (`src/core/src/video.rs`)

Only the parts the bus touches are needed for the claims below:
`read_byte`, `write_byte` with their mode gating, and the tile and
sprite caches those writes maintain.  Fixed-size arrays (`vram`, `oam`,
the caches, the framebuffer) are modelled as index functions; all
indices formed by `write_vram` / `write_oam` are in range in the source,
so no bounds `Option` is needed there. -/

/-- The `Mode` enum. -/
inductive Mode where
  | hblank
  | vblank
  | oamread
  | vramread
  deriving DecidableEq, Repr

/-- The numeric value of a mode (`mode as u8`). -/
def Mode.toNat : Mode → Nat
  | .hblank => 0
  | .vblank => 1
  | .oamread => 2
  | .vramread => 3

/-- The `Priority` enum of a sprite. -/
inductive Priority where
  | above
  | behind
  deriving DecidableEq, Repr

/-- The `Sprite` cache entry. -/
structure Sprite where
  y : Nat
  x : Nat
  tile : Nat
  priority : Priority
  yFlip : Bool
  xFlip : Bool
  palette : Nat
  deriving Repr

/-- `Sprite::default()`. -/
def spriteDefault : Sprite :=
  { y := 0, x := 0, tile := 0, priority := Priority.above,
    yFlip := false, xFlip := false, palette := 0 }

/-- The `Video` struct.  `tiles i p` is pixel `p` (0..63) of cached
tile `i`; `framebuffer` holds shades as numbers 0..3. -/
structure VideoState where
  vram : Nat → Nat
  oam : Nat → Nat
  lcdc : Nat
  stat : Nat
  scy : Nat
  scx : Nat
  ly : Nat
  lyc : Nat
  bgp : Nat
  obp0 : Nat
  obp1 : Nat
  wy : Nat
  wx : Nat
  modeCycles : Nat
  mode : Mode
  framebuffer : Nat → Nat
  tiles : Nat → Nat → Nat
  sprites : Nat → Sprite

/-- `Video::new`. -/
def videoNew : VideoState :=
  { vram := fun _ => 0, oam := fun _ => 0,
    lcdc := 0, stat := 0, scy := 0, scx := 0, ly := 0, lyc := 0,
    bgp := 0, obp0 := 0, obp1 := 0, wy := 0, wx := 0,
    modeCycles := 0, mode := Mode.oamread,
    framebuffer := fun _ => 0,
    tiles := fun _ _ => 0, sprites := fun _ => spriteDefault }

/-- `Video::coincidence_flag`: LYC == LY. -/
def coincidenceFlag (v : VideoState) : Bool := v.lyc = v.ly

/-- `Video::read_byte` (VRAM and OAM only; other addresses are
`unreachable!()` because the bus never routes them here). -/
def videoReadByte (v : VideoState) (address : Nat) : Option Nat :=
  if 0x8000 ≤ address ∧ address ≤ 0x9FFF then
    if v.mode = Mode.vramread then some 0xFF
    else some (v.vram (address - 0x8000))
  else if 0xFE00 ≤ address ∧ address ≤ 0xFE9F then
    if v.mode = Mode.oamread ∨ v.mode = Mode.vramread then some 0xFF
    else some (v.oam (address - 0xFE00))
  else none

/-- The tile-cache update of `Video::write_vram`: for the 8 pixels of
the affected row, set bit `bitToSet` of each pixel from the written
byte, MSB first. -/
def updateTiles (tiles : Nat → Nat → Nat) (tileIndex row bitToSet value : Nat) :
    Nat → Nat → Nat :=
  fun t p =>
    if t = tileIndex ∧ row * 8 ≤ p ∧ p < row * 8 + 8 then
      setBit (tiles t p) bitToSet (getBit value (7 - (p - row * 8)))
    else tiles t p

/-- `Video::write_vram`: store the byte; for pattern-table addresses
(`≤ 0x97FF`) also update the decoded tile cache. -/
def writeVram (v : VideoState) (address value : Nat) : VideoState :=
  let index := address - 0x8000
  let v := { v with vram := Function.update v.vram index value }
  if 0x97FF < address then v
  else
    let tileIndex := index / 16
    let byte := index % 16
    let row := byte / 2
    let bitToSet := if byte % 2 = 0 then 0 else 1
    { v with tiles := updateTiles v.tiles tileIndex row bitToSet value }

/-- `Video::write_oam`: store the byte and update the decoded sprite
cache field selected by `index % 4`; the `none` arm models the
`unreachable!()` (never hit, since `index % 4 < 4`). -/
def writeOam (v : VideoState) (address value : Nat) : Option VideoState :=
  let index := address - 0xFE00
  let v := { v with oam := Function.update v.oam index value }
  let spriteIndex := index / 4
  let s := v.sprites spriteIndex
  let s' :=
    match index % 4 with
    | 0 => some { s with y := value }
    | 1 => some { s with x := value }
    | 2 => some { s with tile := value }
    | 3 => some { s with
        priority := if getBit value 7 then Priority.behind else Priority.above,
        yFlip := getBit value 6,
        xFlip := getBit value 5,
        palette := if getBit value 4 then 1 else 0 }
    | _ => none
  s'.map fun s' => { v with sprites := Function.update v.sprites spriteIndex s' }

/-- `Video::write_byte`: VRAM writes are ignored during `VRAMRead`,
OAM writes during `OAMRead` and `VRAMRead`. -/
def videoWriteByte (v : VideoState) (address value : Nat) : Option VideoState :=
  if 0x8000 ≤ address ∧ address ≤ 0x9FFF then
    if v.mode = Mode.vramread then some v
    else some (writeVram v address value)
  else if 0xFE00 ≤ address ∧ address ≤ 0xFE9F then
    if v.mode = Mode.oamread ∨ v.mode = Mode.vramread then some v
    else writeOam v address value
  else none

/-! ## Address bus (`src/core/src/bus.rs`)

The bus borrows all components; here it owns them as one record.
Addresses are `u16` values, passed as `Nat` (theorems add `< 0x10000`
bounds where they matter). -/

/-- The `AddressBus` contents. -/
structure Bus where
  cartridge : Cartridge
  wram : Nat → Nat
  serial : SerialState
  timer : TimerState
  video : VideoState
  interrupts : InterruptsState
  hram : Nat → Nat

/-- `AddressBus::read_byte`, arm by arm.  The `0xFF41` (STAT) read
composes the stored value with the live coincidence flag and mode
bits. -/
def busReadByte (s : Bus) (address : Nat) : Option Nat :=
  if address ≤ 0x7FFF ∨ (0xA000 ≤ address ∧ address ≤ 0xBFFF) then
    cartridgeReadByte s.cartridge address
  else if (0x8000 ≤ address ∧ address ≤ 0x9FFF) ∨ (0xFE00 ≤ address ∧ address ≤ 0xFE9F) then
    videoReadByte s.video address
  else if 0xC000 ≤ address ∧ address ≤ 0xDFFF then some (s.wram (address - 0xC000))
  else if 0xE000 ≤ address ∧ address ≤ 0xFDFF then some (s.wram (address - 0xE000))
  else if address = 0xFF01 then some s.serial.sb
  else if address = 0xFF02 then some s.serial.sc
  else if address = 0xFF04 then some s.timer.div
  else if address = 0xFF05 then some s.timer.tima
  else if address = 0xFF06 then some s.timer.tma
  else if address = 0xFF07 then some s.timer.tac
  else if address = 0xFF0F then some s.interrupts.iflag
  else if address = 0xFF40 then some s.video.lcdc
  else if address = 0xFF41 then
    let stat := setBit s.video.stat 2 (coincidenceFlag s.video)
    setBitsChecked stat 0 2 s.video.mode.toNat
  else if address = 0xFF42 then some s.video.scy
  else if address = 0xFF43 then some s.video.scx
  else if address = 0xFF44 then some s.video.ly
  else if address = 0xFF45 then some s.video.lyc
  else if address = 0xFF47 then some s.video.bgp
  else if address = 0xFF48 then some s.video.obp0
  else if address = 0xFF49 then some s.video.obp1
  else if address = 0xFF4A then some s.video.wy
  else if address = 0xFF4B then some s.video.wx
  else if 0xFF80 ≤ address ∧ address ≤ 0xFFFE then some (s.hram (address - 0xFF80))
  else if address = 0xFFFF then some s.interrupts.ie
  else some 0xFF

/-- `AddressBus::read_word`: little endian, `address` then
`address + 1` (`u16` addition, wrapping modelled). -/
def busReadWord (s : Bus) (address : Nat) : Option Nat := do
  let low ← busReadByte s address
  let high ← busReadByte s ((address + 1) % 0x10000)
  some (high % 256 * 256 + low % 256)

/-- Every arm of `AddressBus::write_byte` except the `0xFF46` OAM-DMA
arm (which recurses through `write_byte`; since its writes all target
`0xFE00..=0xFE9F`, they land in the video arm of this function, see
`busWriteByte`). -/
def busWriteByteNoDMA (s : Bus) (address value : Nat) : Option Bus :=
  if address ≤ 0x7FFF ∨ (0xA000 ≤ address ∧ address ≤ 0xBFFF) then
    (cartridgeWriteByte s.cartridge address value).map fun c => { s with cartridge := c }
  else if (0x8000 ≤ address ∧ address ≤ 0x9FFF) ∨ (0xFE00 ≤ address ∧ address ≤ 0xFE9F) then
    (videoWriteByte s.video address value).map fun v => { s with video := v }
  else if 0xC000 ≤ address ∧ address ≤ 0xDFFF then
    some { s with wram := Function.update s.wram (address - 0xC000) value }
  else if 0xE000 ≤ address ∧ address ≤ 0xFDFF then
    some { s with wram := Function.update s.wram (address - 0xE000) value }
  else if address = 0xFF01 then some { s with serial.sb := value }
  else if address = 0xFF02 then some { s with serial.sc := value }
  else if address = 0xFF04 then some { s with timer.div := value }
  else if address = 0xFF05 then some { s with timer.tima := value }
  else if address = 0xFF06 then some { s with timer.tma := value }
  else if address = 0xFF07 then some { s with timer.tac := value }
  else if address = 0xFF40 then some { s with video.lcdc := value }
  else if address = 0xFF41 then
    (setBitsChecked s.video.stat 2 8 (getBits value 2 8)).map fun st =>
      { s with video.stat := st }
  else if address = 0xFF42 then some { s with video.scy := value }
  else if address = 0xFF43 then some { s with video.scx := value }
  else if address = 0xFF45 then some { s with video.lyc := value }
  else if address = 0xFF47 then some { s with video.bgp := value }
  else if address = 0xFF48 then some { s with video.obp0 := value }
  else if address = 0xFF49 then some { s with video.obp1 := value }
  else if address = 0xFF4A then some { s with video.wy := value }
  else if address = 0xFF4B then some { s with video.wx := value }
  else if address = 0xFF0F then some { s with interrupts.iflag := value }
  else if 0xFF80 ≤ address ∧ address ≤ 0xFFFE then
    some { s with hram := Function.update s.hram (address - 0xFF80) value }
  else if address = 0xFFFF then some { s with interrupts.ie := value }
  else some s

/-- The `for offset in 0..160` OAM-DMA loop: `k` iterations remain,
the next offset is `off`.  Each iteration is a bus read from
`src + offset` and a bus write to `0xFE00 + offset` (which always lands
in the video arm). -/
def dmaLoop (src : Nat) : Nat → Nat → Bus → Option Bus
  | _, 0, s => some s
  | off, k + 1, s => do
    let value ← busReadByte s (src + off)
    let s ← busWriteByteNoDMA s (0xFE00 + off) value
    dmaLoop src (off + 1) k s

/-- `AddressBus::write_byte`: the `0xFF46` arm performs the OAM DMA
copy (`src = u16::from_le_bytes([0, value]) = value <<< 8`), every
other arm is `busWriteByteNoDMA`. -/
def busWriteByte (s : Bus) (address value : Nat) : Option Bus :=
  if address = 0xFF46 then dmaLoop (value % 256 * 256) 0 160 s
  else busWriteByteNoDMA s address value

/-- `AddressBus::write_word`: little endian, low byte at `address`,
high byte at `address + 1` (`u16`, wrapping modelled). -/
def busWriteWord (s : Bus) (address value : Nat) : Option Bus := do
  let s ← busWriteByte s address (value % 256)
  busWriteByte s ((address + 1) % 0x10000) (value / 256 % 256)

/-! ## State-threaded bus reads

`AddressBus::read_byte` and the component `read_byte`s take `&self`.
The definitions below are the same functions translated with explicit
state passing (each arm returns the component state it finishes with
next to the byte), so that "reads have no side effect" becomes a
provable statement rather than a typing convention. -/

/-- `Cartridge::read_byte` with the cartridge state threaded through. -/
def cartridgeReadByteM (c : Cartridge) (address : Nat) : Option (Nat × Cartridge) :=
  match c.mbc with
  | MBC.mbc0 => (mbc0ReadByte c.rom address).map fun value => (value, c)
  | MBC.mbc1 m => (mbc1ReadByte m c.rom address).map fun value => (value, c)

/-- `Video::read_byte` with the video state threaded through. -/
def videoReadByteM (v : VideoState) (address : Nat) : Option (Nat × VideoState) :=
  if 0x8000 ≤ address ∧ address ≤ 0x9FFF then
    if v.mode = Mode.vramread then some (0xFF, v)
    else some (v.vram (address - 0x8000), v)
  else if 0xFE00 ≤ address ∧ address ≤ 0xFE9F then
    if v.mode = Mode.oamread ∨ v.mode = Mode.vramread then some (0xFF, v)
    else some (v.oam (address - 0xFE00), v)
  else none

/-- `AddressBus::read_byte` with the whole bus state threaded through:
each arm rebuilds the bus from the component state its read returned. -/
def busReadByteM (s : Bus) (address : Nat) : Option (Nat × Bus) :=
  if address ≤ 0x7FFF ∨ (0xA000 ≤ address ∧ address ≤ 0xBFFF) then
    (cartridgeReadByteM s.cartridge address).map fun p => (p.1, { s with cartridge := p.2 })
  else if (0x8000 ≤ address ∧ address ≤ 0x9FFF) ∨ (0xFE00 ≤ address ∧ address ≤ 0xFE9F) then
    (videoReadByteM s.video address).map fun p => (p.1, { s with video := p.2 })
  else if 0xC000 ≤ address ∧ address ≤ 0xDFFF then some (s.wram (address - 0xC000), s)
  else if 0xE000 ≤ address ∧ address ≤ 0xFDFF then some (s.wram (address - 0xE000), s)
  else if address = 0xFF01 then some (s.serial.sb, s)
  else if address = 0xFF02 then some (s.serial.sc, s)
  else if address = 0xFF04 then some (s.timer.div, s)
  else if address = 0xFF05 then some (s.timer.tima, s)
  else if address = 0xFF06 then some (s.timer.tma, s)
  else if address = 0xFF07 then some (s.timer.tac, s)
  else if address = 0xFF0F then some (s.interrupts.iflag, s)
  else if address = 0xFF40 then some (s.video.lcdc, s)
  else if address = 0xFF41 then
    let stat := setBit s.video.stat 2 (coincidenceFlag s.video)
    (setBitsChecked stat 0 2 s.video.mode.toNat).map fun value => (value, s)
  else if address = 0xFF42 then some (s.video.scy, s)
  else if address = 0xFF43 then some (s.video.scx, s)
  else if address = 0xFF44 then some (s.video.ly, s)
  else if address = 0xFF45 then some (s.video.lyc, s)
  else if address = 0xFF47 then some (s.video.bgp, s)
  else if address = 0xFF48 then some (s.video.obp0, s)
  else if address = 0xFF49 then some (s.video.obp1, s)
  else if address = 0xFF4A then some (s.video.wy, s)
  else if address = 0xFF4B then some (s.video.wx, s)
  else if 0xFF80 ≤ address ∧ address ≤ 0xFFFE then some (s.hram (address - 0xFF80), s)
  else if address = 0xFFFF then some (s.interrupts.ie, s)
  else some (0xFF, s)

/-! ## CPU (`src/core/src/cpu.rs`)

Registers hold bytes as `Nat`; the flag register `f` is the `Flag`
bitflags value (`bits` field).  `set_af` truncates as the Rust casts
do: `(value >> 8) as u8` and `(value & 0x00F0) as u8`. -/

/-- The `Registers` struct (`f` is `Flag.bits`). -/
structure Registers where
  a : Nat
  b : Nat
  c : Nat
  d : Nat
  e : Nat
  f : Nat
  h : Nat
  l : Nat
  pc : Nat
  sp : Nat
  deriving Repr, DecidableEq

/-- `Registers::get_af`. -/
def getAF (r : Registers) : Nat := r.a <<< 8 ||| r.f

/-- `Registers::set_af`: A gets the high byte, F gets `value & 0x00F0`
(the low four flag bits are masked off). -/
def setAF (r : Registers) (value : Nat) : Registers :=
  { r with a := value >>> 8 % 256, f := value &&& 0x00F0 }

/-- The `CPU` struct. -/
structure CPUState where
  cycles : Nat
  registers : Registers
  halt : Bool
  ime : Bool
  deriving Repr

/-- `CPU::new` (post-boot register values). -/
def cpuNew : CPUState :=
  { cycles := 0,
    registers :=
      { a := 0x01, b := 0x00, c := 0x13, d := 0x00, e := 0xD8,
        f := 0xB0, h := 0x01, l := 0x4D, pc := 0x0100, sp := 0xFFFE },
    halt := false, ime := true }

/-- `CPU::push`: predecrement SP by 2 (`u16` wrapping), then
`write_word` at the new SP. -/
def cpuPush (cpu : CPUState) (bus : Bus) (value : Nat) : Option (CPUState × Bus) :=
  let sp := (cpu.registers.sp + 0x10000 - 2) % 0x10000
  let cpu := { cpu with registers.sp := sp }
  (busWriteWord bus sp value).map fun bus => (cpu, bus)

/-- The `match n` interrupt-vector table at the end of
`CPU::handle_interrupts`; `none` models the `unreachable!()` arm,
which is reachable whenever the lowest set bit of `IE & IF` is one of
bits 5–7. -/
def interruptVector : Nat → Option Nat
  | 0 => some 0x0040
  | 1 => some 0x0048
  | 2 => some 0x0050
  | 3 => some 0x0058
  | 4 => some 0x0060
  | _ => none

/-- `CPU::handle_interrupts`: returns whether an interrupt was
dispatched, together with the updated CPU and bus. -/
def handleInterrupts (cpu : CPUState) (bus : Bus) : Option (Bool × CPUState × Bus) :=
  if !cpu.ime && !cpu.halt then some (false, cpu, bus)
  else do
    let inte ← busReadByte bus 0xFFFF
    let intf ← busReadByte bus 0xFF0F
    let triggered := inte &&& intf
    if triggered = 0 then some (false, cpu, bus)
    else
      let cpu := { cpu with halt := false }
      if !cpu.ime then some (false, cpu, bus)
      else
        let cpu := { cpu with ime := false }
        let n := trailingZeros8 triggered
        let intf := setBit intf n false
        do
          let bus ← busWriteByte bus 0xFF0F intf
          let pair ← cpuPush cpu bus cpu.registers.pc
          let vec ← interruptVector n
          some (true, { pair.1 with registers.pc := vec }, pair.2)

/-- `CPU::step` without the two opcode tables: interrupt dispatch
(16 cycles), halt (4 cycles), otherwise fetch the opcode, bump PC and
defer to `execute` — the 256-way `match opcode` block, passed in as a
parameter so that theorems about the pre-fetch part hold for every
dispatch table. -/
def cpuStep (execute : Nat → CPUState → Bus → Option (Nat × CPUState × Bus))
    (cpu : CPUState) (bus : Bus) : Option (Nat × CPUState × Bus) := do
  let r ← handleInterrupts cpu bus
  if r.1 then some (16, r.2.1, r.2.2)
  else
    let cpu := r.2.1
    let bus := r.2.2
    if cpu.halt then some (4, cpu, bus)
    else do
      let opcode ← busReadByte bus cpu.registers.pc
      let cpu := { cpu with registers.pc := (cpu.registers.pc + 1) % 0x10000 }
      let er ← execute opcode cpu bus
      some (er.1, { er.2.1 with cycles := er.2.1.cycles + er.1 }, er.2.2)

/-! ## ROM title extraction (`src/core/src/rom.rs`, `ROM::title`)

`title` slices `self.0[0x134..=0x143]` (panicking when the image is
shorter), truncates at the first NUL, and runs
`String::from_utf8(..).unwrap()` — a strict UTF-8 conversion whose
`unwrap` panics on invalid input.  `utf8Valid` is Rust's
`core::str` UTF-8 acceptance condition (well-formed sequences only:
no overlong encodings, no surrogates, no code points above
`0x10FFFF`). -/

/-- Continuation byte: `0x80..=0xBF`. -/
def utf8Cont (b : Nat) : Bool := 0x80 ≤ b && b ≤ 0xBF

/-- Rust's `str::from_utf8` validity of a byte sequence. -/
def utf8Valid : List Nat → Bool
  | [] => true
  | b :: r =>
    if b ≤ 0x7F then utf8Valid r
    else if 0xC2 ≤ b && b ≤ 0xDF then
      match r with
      | c :: r' => utf8Cont c && utf8Valid r'
      | [] => false
    else if b = 0xE0 then
      match r with
      | c :: d :: r' => (0xA0 ≤ c && c ≤ 0xBF) && utf8Cont d && utf8Valid r'
      | _ => false
    else if (0xE1 ≤ b && b ≤ 0xEC) || b = 0xEE || b = 0xEF then
      match r with
      | c :: d :: r' => utf8Cont c && utf8Cont d && utf8Valid r'
      | _ => false
    else if b = 0xED then
      match r with
      | c :: d :: r' => (0x80 ≤ c && c ≤ 0x9F) && utf8Cont d && utf8Valid r'
      | _ => false
    else if b = 0xF0 then
      match r with
      | c :: d :: e :: r' => (0x90 ≤ c && c ≤ 0xBF) && utf8Cont d && utf8Cont e && utf8Valid r'
      | _ => false
    else if 0xF1 ≤ b && b ≤ 0xF3 then
      match r with
      | c :: d :: e :: r' => utf8Cont c && utf8Cont d && utf8Cont e && utf8Valid r'
      | _ => false
    else if b = 0xF4 then
      match r with
      | c :: d :: e :: r' => (0x80 ≤ c && c ≤ 0x8F) && utf8Cont d && utf8Cont e && utf8Valid r'
      | _ => false
    else false

/-- The title slice `rom[0x134..=0x143]`, truncated at the first NUL
(`title.iter().position(|x| x == 0)`). -/
def titleBytes (rom : List Nat) : List Nat :=
  ((rom.drop 0x134).take 16).takeWhile (· ≠ 0)

/-- `ROM::title`: `none` models the two panics (slice out of range,
`String::from_utf8(..).unwrap()` on invalid UTF-8); `some bytes` is the
returned string's byte content. -/
def romTitle (rom : List Nat) : Option (List Nat) :=
  if rom.length < 0x144 then none
  else if utf8Valid (titleBytes rom) then some (titleBytes rom) else none

/-! ## Cycle counts and the frame loop (`src/core/src/cpu.rs`,
`src/core/src/lib.rs`)

`primaryCycles` maps each implemented non-prefix opcode to the set of
cycle counts its handler can return (two entries for the conditional
JR/JP/CALL/RET forms: taken first, not taken second); `cbCycles` does
the same for the 256 `0xCB`-prefixed opcodes.  Opcode `0x10` (STOP,
`unimplemented!()`) and the eleven undefined opcodes (which hit the
`panic!` arm) never return and are absent. -/

/-- Cycle counts of every implemented primary opcode. -/
def primaryCycles : List (Nat × List Nat) := [
  (0x00, [4]), (0x01, [12]), (0x02, [8]), (0x03, [8]),
  (0x04, [4]), (0x05, [4]), (0x06, [8]), (0x07, [4]),
  (0x08, [20]), (0x09, [8]), (0x0A, [8]), (0x0B, [8]),
  (0x0C, [4]), (0x0D, [4]), (0x0E, [8]), (0x0F, [4]),
  (0x11, [12]), (0x12, [8]), (0x13, [8]), (0x14, [4]),
  (0x15, [4]), (0x16, [8]), (0x17, [4]), (0x18, [12]),
  (0x19, [8]), (0x1A, [8]), (0x1B, [8]), (0x1C, [4]),
  (0x1D, [4]), (0x1E, [8]), (0x1F, [4]), (0x20, [12, 8]),
  (0x21, [12]), (0x22, [8]), (0x23, [8]), (0x24, [4]),
  (0x25, [4]), (0x26, [8]), (0x27, [4]), (0x28, [12, 8]),
  (0x29, [8]), (0x2A, [8]), (0x2B, [8]), (0x2C, [4]),
  (0x2D, [4]), (0x2E, [8]), (0x2F, [4]), (0x30, [12, 8]),
  (0x31, [12]), (0x32, [8]), (0x33, [8]), (0x34, [12]),
  (0x35, [12]), (0x36, [12]), (0x37, [4]), (0x38, [12, 8]),
  (0x39, [8]), (0x3A, [8]), (0x3B, [8]), (0x3C, [4]),
  (0x3D, [4]), (0x3E, [8]), (0x3F, [4]), (0x40, [4]),
  (0x41, [4]), (0x42, [4]), (0x43, [4]), (0x44, [4]),
  (0x45, [4]), (0x46, [8]), (0x47, [4]), (0x48, [4]),
  (0x49, [4]), (0x4A, [4]), (0x4B, [4]), (0x4C, [4]),
  (0x4D, [4]), (0x4E, [8]), (0x4F, [4]), (0x50, [4]),
  (0x51, [4]), (0x52, [4]), (0x53, [4]), (0x54, [4]),
  (0x55, [4]), (0x56, [8]), (0x57, [4]), (0x58, [4]),
  (0x59, [4]), (0x5A, [4]), (0x5B, [4]), (0x5C, [4]),
  (0x5D, [4]), (0x5E, [8]), (0x5F, [4]), (0x60, [4]),
  (0x61, [4]), (0x62, [4]), (0x63, [4]), (0x64, [4]),
  (0x65, [4]), (0x66, [8]), (0x67, [4]), (0x68, [4]),
  (0x69, [4]), (0x6A, [4]), (0x6B, [4]), (0x6C, [4]),
  (0x6D, [4]), (0x6E, [8]), (0x6F, [4]), (0x70, [8]),
  (0x71, [8]), (0x72, [8]), (0x73, [8]), (0x74, [8]),
  (0x75, [8]), (0x76, [4]), (0x77, [8]), (0x78, [4]),
  (0x79, [4]), (0x7A, [4]), (0x7B, [4]), (0x7C, [4]),
  (0x7D, [4]), (0x7E, [8]), (0x7F, [4]), (0x80, [4]),
  (0x81, [4]), (0x82, [4]), (0x83, [4]), (0x84, [4]),
  (0x85, [4]), (0x86, [8]), (0x87, [4]), (0x88, [4]),
  (0x89, [4]), (0x8A, [4]), (0x8B, [4]), (0x8C, [4]),
  (0x8D, [4]), (0x8E, [8]), (0x8F, [4]), (0x90, [4]),
  (0x91, [4]), (0x92, [4]), (0x93, [4]), (0x94, [4]),
  (0x95, [4]), (0x96, [8]), (0x97, [4]), (0x98, [4]),
  (0x99, [4]), (0x9A, [4]), (0x9B, [4]), (0x9C, [4]),
  (0x9D, [4]), (0x9E, [8]), (0x9F, [4]), (0xA0, [4]),
  (0xA1, [4]), (0xA2, [4]), (0xA3, [4]), (0xA4, [4]),
  (0xA5, [4]), (0xA6, [8]), (0xA7, [4]), (0xA8, [4]),
  (0xA9, [4]), (0xAA, [4]), (0xAB, [4]), (0xAC, [4]),
  (0xAD, [4]), (0xAE, [8]), (0xAF, [4]), (0xB0, [4]),
  (0xB1, [4]), (0xB2, [4]), (0xB3, [4]), (0xB4, [4]),
  (0xB5, [4]), (0xB6, [8]), (0xB7, [4]), (0xB8, [4]),
  (0xB9, [4]), (0xBA, [4]), (0xBB, [4]), (0xBC, [4]),
  (0xBD, [4]), (0xBE, [8]), (0xBF, [4]), (0xC0, [20, 8]),
  (0xC1, [12]), (0xC2, [16, 12]), (0xC3, [16]), (0xC4, [24, 12]),
  (0xC5, [16]), (0xC6, [8]), (0xC7, [16]), (0xC8, [20, 8]),
  (0xC9, [16]), (0xCA, [16, 12]), (0xCC, [24, 12]), (0xCD, [24]),
  (0xCE, [8]), (0xCF, [16]), (0xD0, [20, 8]), (0xD1, [12]),
  (0xD2, [16, 12]), (0xD4, [24, 12]), (0xD5, [16]), (0xD6, [8]),
  (0xD7, [16]), (0xD8, [20, 8]), (0xD9, [16]), (0xDA, [16, 12]),
  (0xDC, [24, 12]), (0xDE, [8]), (0xDF, [16]), (0xE0, [12]),
  (0xE1, [12]), (0xE2, [8]), (0xE5, [16]), (0xE6, [8]),
  (0xE7, [16]), (0xE8, [16]), (0xE9, [4]), (0xEA, [16]),
  (0xEE, [8]), (0xEF, [16]), (0xF0, [12]), (0xF1, [12]),
  (0xF2, [8]), (0xF3, [4]), (0xF5, [16]), (0xF6, [8]),
  (0xF7, [16]), (0xF8, [12]), (0xF9, [8]), (0xFA, [16]),
  (0xFB, [4]), (0xFE, [8]), (0xFF, [16])]

/-- Cycle counts of every `0xCB`-prefixed opcode (all 256 are
implemented): 8 for register operands, 16 for `(HL)` operands, except
`BIT n,(HL)` which is 12. -/
def cbCycles : List (Nat × List Nat) :=
  (List.range 256).map fun op =>
    (op, [if op % 8 ≠ 6 then 8 else if 0x40 ≤ op ∧ op ≤ 0x7F then 12 else 16])

/-- The cycle values `CPU::step` can return. -/
def allowedCycles : List Nat := [4, 8, 12, 16, 20, 24]

/-- The `while elapsed_cycles <= CPU_CYCLES_PER_FRAME` loop of
`Console::run_frame`, abstracted over the per-iteration cycle counts
(`step i` is what the i-th CPU step returns): `fuel` bounds the number
of iterations, `none` meaning the bound was hit while the guard still
held. -/
def runFrameLoop (step : Nat → Nat) : Nat → Nat → Nat → Option Nat
  | 0, _, elapsed => if elapsed ≤ 70224 then none else some elapsed
  | fuel + 1, i, elapsed =>
    if elapsed ≤ 70224 then runFrameLoop step fuel (i + 1) (elapsed + step i)
    else some elapsed

/-! ## Helper lemmas -/

/-- Bits of the constant `0xF0`. -/
theorem testBit_240 (k : Nat) : Nat.testBit 240 k = (decide (4 ≤ k) && decide (k ≤ 7)) := by
  rcases lt_or_ge k 8 with h | h
  · interval_cases k <;> decide
  · have hz : Nat.testBit 240 k = false := Nat.testBit_lt_two_pow (by
      calc (240 : Nat) < 2 ^ 8 := by norm_num
        _ ≤ 2 ^ k := Nat.pow_le_pow_right (by norm_num) h)
    simp [hz, show ¬ (k ≤ 7) by omega]

/-- Bits of the constant `0xFFF0`. -/
theorem testBit_65520 (k : Nat) : Nat.testBit 65520 k = (decide (4 ≤ k) && decide (k ≤ 15)) := by
  rcases lt_or_ge k 16 with h | h
  · interval_cases k <;> decide
  · have hz : Nat.testBit 65520 k = false := Nat.testBit_lt_two_pow (by
      calc (65520 : Nat) < 2 ^ 16 := by norm_num
        _ ≤ 2 ^ k := Nat.pow_le_pow_right (by norm_num) h)
    simp [hz, show ¬ (k ≤ 15) by omega]

/-- The AF computation: storing the high byte in A and `v & 0xF0` in F
and reading the pair back produces `v & 0xFFF0`. -/
theorem af_core (v : Nat) :
    ((v >>> 8 % 256) <<< 8 ||| (v &&& 0x00F0)) = v &&& 0xFFF0 := by
  have hm : ∀ k, (v >>> 8 % 256).testBit k = (decide (k < 8) && v.testBit (8 + k)) := by
    intro k
    rw [show (256 : Nat) = 2 ^ 8 by norm_num, Nat.testBit_mod_two_pow, Nat.testBit_shiftRight]
  apply Nat.eq_of_testBit_eq
  intro i
  simp only [Nat.testBit_lor, Nat.testBit_land, Nat.testBit_shiftLeft, hm, testBit_240,
    testBit_65520]
  rcases lt_or_ge i 8 with h8 | h8
  · simp [show ¬ (8 ≤ i) by omega, show (i ≤ 7) by omega, show (i ≤ 15) by omega]
  · have hi : 8 + (i - 8) = i := by omega
    rcases lt_or_ge i 16 with h16 | h16
    · simp [show (8 ≤ i) by omega, show (i - 8 < 8) by omega, hi, show ¬ (i ≤ 7) by omega,
        show (4 ≤ i) by omega, show (i ≤ 15) by omega]
    · simp [show ¬ (i - 8 < 8) by omega, show ¬ (i ≤ 7) by omega, show ¬ (i ≤ 15) by omega]

/-- Unfolding `stepDividerLoop` when the guard fails. -/
theorem stepDividerLoop_base (div dc : Nat) (h : dc < 256) :
    stepDividerLoop div dc = (div, dc) := by
  rw [stepDividerLoop]
  simp [Nat.not_le.2 h]

/-- Unfolding `stepDividerLoop` for one iteration. -/
theorem stepDividerLoop_step (div dc : Nat) (h : 256 ≤ dc) :
    stepDividerLoop div dc = stepDividerLoop ((div + 1) % 256) (dc - 256) := by
  rw [stepDividerLoop]
  simp [h]

/-- Unfolding `stepTimerLoop` when the guard fails. -/
theorem stepTimerLoop_base (freq tma tima tc : Nat) (over : Bool)
    (h : ¬ (0 < freq ∧ freq ≤ tc)) :
    stepTimerLoop freq tma tima tc over = (tima, tc, over) := by
  rw [stepTimerLoop]
  simp [h]

/-- Unfolding `stepTimerLoop` for one non-overflowing iteration. -/
theorem stepTimerLoop_inc (freq tma tima tc : Nat) (over : Bool) (h : 0 < freq ∧ freq ≤ tc)
    (h2 : tima + 1 < 256) :
    stepTimerLoop freq tma tima tc over = stepTimerLoop freq tma (tima + 1) (tc - freq) over := by
  rw [stepTimerLoop]
  simp [h, Nat.not_le.2 h2]

/-- Unfolding `stepTimerLoop` for one overflowing iteration. -/
theorem stepTimerLoop_ovf (freq tma tima tc : Nat) (over : Bool) (h : 0 < freq ∧ freq ≤ tc)
    (h2 : 256 ≤ tima + 1) :
    stepTimerLoop freq tma tima tc over = stepTimerLoop freq tma tma (tc - freq) true := by
  rw [stepTimerLoop]
  simp [h, h2]

/-- A timer with TAC = 0b110: enabled, rate-select bits `10` (which the
spec maps to a 64-cycle period). -/
def timerTac6 : TimerState :=
  { div := 0, tima := 0, tma := 0, tac := 0b110, dividerCycles := 0, timerCycles := 0 }

/-- A minimal bus: ROM-only cartridge with an empty image, all memories
zero, the given IE and IF bytes. -/
def busFor (ie iflag : Nat) : Bus :=
  { cartridge := { rom := { data := fun _ => 0, size := 0 }, mbc := MBC.mbc0 },
    wram := fun _ => 0, serial := serialNew, timer := timerNew, video := videoNew,
    interrupts := { iflag := iflag, ie := ie }, hram := fun _ => 0 }

/-- The post-boot CPU with SP moved into WRAM. -/
def cpuW : CPUState := { cpuNew with registers.sp := 0xC100 }

/-! ## Claim theorems -/

/-- Claim C1 (code bug).  The claim says TIMA has period 64 when
TAC[1:0] = 10 and 256 when TAC[1:0] = 11.  In the code `get_freq`
selects on `tac.get_bits(0..1)` — bit 0 alone — so TAC = 0b110 yields
period 1024 (no TIMA increment after 64 cycles, one after 1024) and
TAC = 0b111 yields period 16 (an increment after only 16 cycles).  The
dead `0b10`/`0b11` match arms in `get_freq` show the intended table. -/
theorem timer_period_selector_code_bug :
    (timerStep timerTac6 64).map (fun p => (p.1.tima, p.2.length)) = some (0, 0)
    ∧ (timerStep timerTac6 1024).map (fun p => (p.1.tima, p.2.length)) = some (1, 0)
    ∧ (timerStep { timerTac6 with tac := 0b111 } 16).map (fun p => (p.1.tima, p.2.length)) =
        some (1, 0) := by
  refine ⟨?_, ?_, ?_⟩
  · have hd := stepDividerLoop_base 0 64 (by norm_num)
    have ht := stepTimerLoop_base 1024 0 0 64 false (by omega)
    simp [timerStep, timerTac6, stepDivider, timerEnabled, getBit, stepTimer, getFreq, getBits,
      hd, ht, show Nat.testBit 6 2 = true from by decide]
  · have hd : stepDividerLoop 0 1024 = (4, 0) := by
      rw [stepDividerLoop_step _ _ (by norm_num), stepDividerLoop_step _ _ (by norm_num),
        stepDividerLoop_step _ _ (by norm_num), stepDividerLoop_step _ _ (by norm_num)]
      norm_num [stepDividerLoop_base]
    have ht : stepTimerLoop 1024 0 0 1024 false = (1, 0, false) := by
      rw [stepTimerLoop_inc _ _ _ _ _ (by omega) (by omega)]
      norm_num [stepTimerLoop_base]
    simp [timerStep, timerTac6, stepDivider, timerEnabled, getBit, stepTimer, getFreq, getBits,
      hd, ht, show Nat.testBit 6 2 = true from by decide]
  · have hd := stepDividerLoop_base 0 16 (by norm_num)
    have ht : stepTimerLoop 16 0 0 16 false = (1, 0, false) := by
      rw [stepTimerLoop_inc _ _ _ _ _ (by omega) (by omega)]
      norm_num [stepTimerLoop_base]
    simp [timerStep, timerTac6, stepDivider, timerEnabled, getBit, stepTimer, getFreq, getBits,
      hd, ht, show Nat.testBit 7 2 = true from by decide]

/-- Claim C3 (code bug).  With IME set and IE & IF nonzero only in
bits 5–7 (here IE = IF = 0x20), `handle_interrupts` does not ignore the
request: it un-halts, clears IME, clears IF bit 5, pushes PC, and then
panics at the `unreachable!()` arm of the vector match (n = 5), so
`CPU::step` aborts rather than behaving as if IE & IF were zero. -/
theorem interrupt_upper_bits_code_bug :
    handleInterrupts cpuW (busFor 0x20 0x20) = none
    ∧ cpuStep (fun _ _ _ => none) cpuW (busFor 0x20 0x20) = none := by
  constructor
  · rfl
  · rfl

/-- Claim C4 counterexample.  From the initial MBC1 state (`rom_bank`
= 1), writing 0x00 to 0x2000 sets the low five bits of `rom_bank` to
zero with no forcing to 1: the resulting `rom_bank` is 0, violating
"stays in 1..=127 and is never 0". -/
theorem mbc1_rom_bank_zero_cex :
    (mbc1WriteByte (mbc1New 0) 0x2000 0).map (fun m => m.romBank) = some 0
    ∧ ((0 : Nat) < 1) := by
  exact ⟨rfl, by norm_num⟩

/-- Claim C4 (amended).  A write of `v < 32` to 0x2000–0x3FFF replaces
the low 5 bits of `rom_bank` by `v` with no zero-forcing, and every
successful MBC1 register write keeps `rom_bank` below 64 (the bank
field only ever receives bits 0–5). -/
theorem mbc1_rom_bank_amended (m : MBC1State) (a v : Nat) :
    (0x2000 ≤ a → a ≤ 0x3FFF → v < 32 →
      mbc1WriteByte m a v = some { m with romBank := m.romBank / 32 * 32 + v })
    ∧ (∀ m', mbc1WriteByte m a v = some m' → m.romBank < 64 → m'.romBank < 64) := by
  constructor
  · intro h1 h2 h3
    unfold mbc1WriteByte
    rw [if_neg (by omega), if_pos (by omega)]
    simp [setBitsChecked, setBitsRaw, h3]
    omega
  · intro m' h hb
    unfold mbc1WriteByte at h
    by_cases h1 : a ≤ 0x1FFF
    · rw [if_pos h1] at h; cases h; simpa
    rw [if_neg h1] at h
    by_cases h2 : a ≤ 0x3FFF
    · rw [if_pos h2, Option.map_eq_some'] at h
      obtain ⟨rb, hrb, hm⟩ := h
      unfold setBitsChecked setBitsRaw at hrb
      split_ifs at hrb with hv
      cases hrb
      cases hm
      simp at hv ⊢
      omega
    rw [if_neg h2] at h
    by_cases h3 : a ≤ 0x5FFF
    · rw [if_pos h3] at h
      cases hbm : m.bankMode
      · rw [hbm] at h
        have h' : (setBitsChecked m.romBank 5 6 v).map
            (fun rb =>
              MBC1State.mk m.ram m.ramSize m.ramEnabled rb m.ramBank BankMode.rom) = some m' := h
        rw [Option.map_eq_some'] at h'
        obtain ⟨rb, hrb, hm⟩ := h'
        unfold setBitsChecked setBitsRaw at hrb
        split_ifs at hrb with hv
        cases hrb
        cases hm
        simp at hv ⊢
        omega
      · rw [hbm] at h
        have h' : (if v ≤ 0x03 then
            some (MBC1State.mk m.ram m.ramSize m.ramEnabled m.romBank v BankMode.ram)
            else none) = some m' := h
        split_ifs at h'
        cases h'
        simpa
    rw [if_neg h3] at h
    by_cases h4 : a ≤ 0x7FFF
    · rw [if_pos h4] at h
      match v, h with
      | 0, h => cases h; simpa
      | 1, h => cases h; simpa
    rw [if_neg h4] at h
    by_cases h5 : 0xA000 ≤ a ∧ a ≤ 0xBFFF
    · rw [if_pos h5] at h
      by_cases h6 : !m.ramEnabled
      · rw [if_pos h6] at h; cases h; simpa
      · rw [if_neg h6] at h
        have h' : (if m.ramBank * 0x2000 + a - 0xA000 < m.ramSize then
            some (MBC1State.mk (Function.update m.ram (m.ramBank * 0x2000 + a - 0xA000) v)
              m.ramSize m.ramEnabled m.romBank m.ramBank m.bankMode)
            else none) = some m' := h
        split_ifs at h'
        cases h'
        exact hb
    · rw [if_neg h5] at h
      cases h
/-- Claim C4 amended, witness: writing 5 to 0x2000 on a fresh MBC1
replaces the low bank bits by 5, and the result stays below 64. -/
theorem mbc1_rom_bank_amended_witness :
    mbc1WriteByte (mbc1New 0) 0x2000 5 =
      some { mbc1New 0 with romBank := (mbc1New 0).romBank / 32 * 32 + 5 }
    ∧ ({ mbc1New 0 with romBank := (mbc1New 0).romBank / 32 * 32 + 5 } : MBC1State).romBank
        < 64 := by
  have h := mbc1_rom_bank_amended (mbc1New 0) 0x2000 5
  have h1 := h.1 (by norm_num) (by norm_num) (by norm_num)
  exact ⟨h1, h.2 _ h1 (by decide)⟩

/-- Claim C6.  With SC = 0x81 and the accumulated cycles reaching 8,
`Serial::step` emits exactly the current SB byte to the sink, resets
SB to 0xFF, SC to 0x01 and the accumulator to 0, and raises exactly one
Serial interrupt; with SC ≠ 0x81 nothing changes and nothing is
raised. -/
theorem serial_transfer_step (s : SerialState) (c : Nat) :
    (s.sc = 0x81 → 8 ≤ s.transferCycles + c →
      serialStep s c =
        ({ sb := 0xFF, sc := 0x01, transferCycles := 0 }, [s.sb], [Interrupt.serial]))
    ∧ (s.sc ≠ 0x81 → serialStep s c = (s, [], [])) := by
  constructor
  · intro h1 h2
    simp [serialStep, h1, h2]
  · intro h1
    simp [serialStep, h1]

/-- Claim C6, witness: a transfer of byte 0x42 completes after 8
cycles; a serial port with SC = 0 is untouched. -/
theorem serial_transfer_step_witness :
    serialStep { sb := 0x42, sc := 0x81, transferCycles := 0 } 8 =
      ({ sb := 0xFF, sc := 0x01, transferCycles := 0 }, [0x42], [Interrupt.serial])
    ∧ serialStep { sb := 0x42, sc := 0, transferCycles := 0 } 8 =
      ({ sb := 0x42, sc := 0, transferCycles := 0 }, [], []) :=
  ⟨(serial_transfer_step { sb := 0x42, sc := 0x81, transferCycles := 0 } 8).1 rfl (by norm_num),
   (serial_transfer_step { sb := 0x42, sc := 0, transferCycles := 0 } 8).2 (by norm_num)⟩

/-- Claim C7.  For `v` in the `u16` range, `set_af(v)` followed by
`get_af()` yields `v & 0xFFF0`, and the written F always has its low
four bits zero. -/
theorem af_roundtrip_mask (r : Registers) (v : Nat) (h : v < 0x10000) :
    getAF (setAF r v) = v &&& 0xFFF0 ∧ (setAF r v).f % 16 = 0 := by
  constructor
  · exact af_core v
  · show (v &&& 240) % 16 = 0
    rw [show (16 : Nat) = 2 ^ 4 by norm_num, ← Nat.and_pow_two_sub_one_eq_mod,
      Nat.land_assoc, show ((240 : Nat) &&& (2 ^ 4 - 1)) = 0 from rfl]
    simp

/-- Claim C7, witness at v = 0x1234 on the post-boot registers. -/
theorem af_roundtrip_mask_witness :
    getAF (setAF cpuNew.registers 0x1234) = 0x1234 &&& 0xFFF0
    ∧ (setAF cpuNew.registers 0x1234).f % 16 = 0 :=
  af_roundtrip_mask cpuNew.registers 0x1234 (by norm_num)

/-- A 0x144-byte image whose title field starts with the invalid UTF-8
byte 0xFF. -/
def romBadTitle : List Nat := List.replicate 0x134 0 ++ 0xFF :: List.replicate 15 0x41

/-- A 0x144-byte image whose title field is sixteen ASCII letters. -/
def romGoodTitle : List Nat := List.replicate 0x134 0 ++ List.replicate 16 0x41

/-- Length of the invalid-title image. -/
theorem romBadTitle_length : romBadTitle.length = 0x144 := by
  rw [romBadTitle, List.length_append, List.length_cons, List.length_replicate,
    List.length_replicate]

/-- Length of the ASCII-title image. -/
theorem romGoodTitle_length : romGoodTitle.length = 0x144 := by
  rw [romGoodTitle, List.length_append, List.length_replicate, List.length_replicate]

/-- Claim C8 counterexample.  On an image whose title bytes are not
valid UTF-8, `ROM::title` does not substitute the offending bytes — the
strict `String::from_utf8(..).unwrap()` panics, so extraction fails
(the lossy conversion in `gb_load_rom` is applied to the file path, not
the title). -/
theorem rom_title_invalid_utf8_cex : romTitle romBadTitle = none := by
  have hv : utf8Valid (titleBytes romBadTitle) = false := by rfl
  have hl : ¬ romBadTitle.length < 0x144 := by
    rw [romBadTitle_length]
    norm_num
  simp [romTitle, hl, hv]

/-- Claim C8 (amended).  Title extraction is strict: when the
NUL-truncated title bytes are not valid UTF-8 it fails (panics), and
when they are valid it returns exactly those bytes. -/
theorem rom_title_strict_utf8 (rom : List Nat) :
    (0x144 ≤ rom.length → utf8Valid (titleBytes rom) = false → romTitle rom = none)
    ∧ (0x144 ≤ rom.length → utf8Valid (titleBytes rom) = true →
        romTitle rom = some (titleBytes rom)) := by
  constructor
  · intro h1 h2
    simp [romTitle, Nat.not_lt.2 h1, h2]
  · intro h1 h2
    simp [romTitle, Nat.not_lt.2 h1, h2]

/-- Claim C8 amended, witness on the invalid and the all-ASCII
images. -/
theorem rom_title_strict_utf8_witness :
    romTitle romBadTitle = none ∧ romTitle romGoodTitle = some (titleBytes romGoodTitle) :=
  ⟨(rom_title_strict_utf8 romBadTitle).1 (by rw [romBadTitle_length]) (by rfl),
   (rom_title_strict_utf8 romGoodTitle).2 (by rw [romGoodTitle_length]) (by rfl)⟩

/-- If every step contributes at least 4 cycles, `runFrameLoop` with
enough fuel exits with a total above the frame target. -/
theorem runFrameLoop_exits (step : Nat → Nat) (hstep : ∀ j, 4 ≤ step j) :
    ∀ fuel i elapsed, 70225 ≤ elapsed + 4 * fuel →
      ∃ r, runFrameLoop step fuel i elapsed = some r ∧ 70225 ≤ r := by
  intro fuel
  induction fuel with
  | zero =>
    intro i elapsed h
    refine ⟨elapsed, ?_, by omega⟩
    simp [runFrameLoop, show ¬ elapsed ≤ 70224 by omega]
  | succ fuel ih =>
    intro i elapsed h
    by_cases hg : elapsed ≤ 70224
    · have hs := hstep i
      have := ih (i + 1) (elapsed + step i) (by omega)
      simpa [runFrameLoop, hg] using this
    · exact ⟨elapsed, by simp [runFrameLoop, hg], by omega⟩

set_option maxRecDepth 4000 in
/-- Claim C9.  Every cycle count an implemented opcode handler can
return (per the transcribed tables), together with the 16 cycles of an
interrupt dispatch and the 4 cycles of a halted step, lies in
{4, 8, 12, 16, 20, 24}; all of these are at least 4, so the
`run_frame` loop, whose guard is `elapsed ≤ 70224`, terminates within
17557 iterations with at least 70,224 total elapsed cycles. -/
theorem cpu_step_cycles_bounded :
    primaryCycles.all (fun p => p.2.all (fun c => c ∈ allowedCycles)) = true
    ∧ cbCycles.all (fun p => p.2.all (fun c => c ∈ allowedCycles)) = true
    ∧ allowedCycles.all (fun c => 4 ≤ c) = true
    ∧ (16 ∈ allowedCycles ∧ 4 ∈ allowedCycles)
    ∧ (∀ step : Nat → Nat, (∀ j, 4 ≤ step j) →
        ∃ r, runFrameLoop step 17557 0 0 = some r ∧ 70224 ≤ r) := by
  refine ⟨by decide, by decide, by decide, ⟨by decide, by decide⟩, ?_⟩
  intro step hstep
  obtain ⟨r, hr, hr2⟩ := runFrameLoop_exits step hstep 17557 0 0 (by norm_num)
  exact ⟨r, hr, by omega⟩

/-- Claim C9, witness: with every step costing the minimum 4 cycles,
the frame loop exits at 70,228 elapsed cycles. -/
theorem cpu_step_cycles_bounded_witness :
    ∃ r, runFrameLoop (fun _ => 4) 17557 0 0 = some r ∧ 70224 ≤ r :=
  cpu_step_cycles_bounded.2.2.2.2 (fun _ => 4) (fun _ => Nat.le_refl 4)

set_option maxHeartbeats 2000000 in
/-- Claim C10.  `AddressBus::read_byte` has no side effect: the
state-threaded translation returns the bus unchanged next to the same
byte the pure reading computes, and re-reading the same address from
the state a read returns gives the same answer. -/
theorem bus_read_byte_pure (s : Bus) (address : Nat) :
    busReadByteM s address = (busReadByte s address).map (fun value => (value, s))
    ∧ (busReadByteM s address).bind (fun p => busReadByteM p.2 address) =
        busReadByteM s address := by
  have hc : cartridgeReadByteM s.cartridge address =
      (cartridgeReadByte s.cartridge address).map (fun value => (value, s.cartridge)) := by
    unfold cartridgeReadByteM cartridgeReadByte
    cases s.cartridge.mbc <;> rfl
  have hv : videoReadByteM s.video address =
      (videoReadByte s.video address).map (fun value => (value, s.video)) := by
    unfold videoReadByteM videoReadByte
    split_ifs <;> rfl
  have h1 : busReadByteM s address = (busReadByte s address).map (fun value => (value, s)) := by
    unfold busReadByteM busReadByte
    by_cases hA0 : address ≤ 0x7FFF ∨ (0xA000 ≤ address ∧ address ≤ 0xBFFF)
    · rw [if_pos hA0, if_pos hA0, hc]
      cases cartridgeReadByte s.cartridge address <;> rfl
    rw [if_neg hA0, if_neg hA0]
    by_cases hA1 : (0x8000 ≤ address ∧ address ≤ 0x9FFF) ∨ (0xFE00 ≤ address ∧ address ≤ 0xFE9F)
    · rw [if_pos hA1, if_pos hA1, hv]
      cases videoReadByte s.video address <;> rfl
    rw [if_neg hA1, if_neg hA1]
    by_cases hA2 : 0xC000 ≤ address ∧ address ≤ 0xDFFF
    · rw [if_pos hA2, if_pos hA2]; rfl
    rw [if_neg hA2, if_neg hA2]
    by_cases hA3 : 0xE000 ≤ address ∧ address ≤ 0xFDFF
    · rw [if_pos hA3, if_pos hA3]; rfl
    rw [if_neg hA3, if_neg hA3]
    by_cases hA4 : address = 0xFF01
    · rw [if_pos hA4, if_pos hA4]; rfl
    rw [if_neg hA4, if_neg hA4]
    by_cases hA5 : address = 0xFF02
    · rw [if_pos hA5, if_pos hA5]; rfl
    rw [if_neg hA5, if_neg hA5]
    by_cases hA6 : address = 0xFF04
    · rw [if_pos hA6, if_pos hA6]; rfl
    rw [if_neg hA6, if_neg hA6]
    by_cases hA7 : address = 0xFF05
    · rw [if_pos hA7, if_pos hA7]; rfl
    rw [if_neg hA7, if_neg hA7]
    by_cases hA8 : address = 0xFF06
    · rw [if_pos hA8, if_pos hA8]; rfl
    rw [if_neg hA8, if_neg hA8]
    by_cases hA9 : address = 0xFF07
    · rw [if_pos hA9, if_pos hA9]; rfl
    rw [if_neg hA9, if_neg hA9]
    by_cases hA10 : address = 0xFF0F
    · rw [if_pos hA10, if_pos hA10]; rfl
    rw [if_neg hA10, if_neg hA10]
    by_cases hA11 : address = 0xFF40
    · rw [if_pos hA11, if_pos hA11]; rfl
    rw [if_neg hA11, if_neg hA11]
    by_cases hA12 : address = 0xFF41
    · rw [if_pos hA12, if_pos hA12]
    rw [if_neg hA12, if_neg hA12]
    by_cases hA13 : address = 0xFF42
    · rw [if_pos hA13, if_pos hA13]; rfl
    rw [if_neg hA13, if_neg hA13]
    by_cases hA14 : address = 0xFF43
    · rw [if_pos hA14, if_pos hA14]; rfl
    rw [if_neg hA14, if_neg hA14]
    by_cases hA15 : address = 0xFF44
    · rw [if_pos hA15, if_pos hA15]; rfl
    rw [if_neg hA15, if_neg hA15]
    by_cases hA16 : address = 0xFF45
    · rw [if_pos hA16, if_pos hA16]; rfl
    rw [if_neg hA16, if_neg hA16]
    by_cases hA17 : address = 0xFF47
    · rw [if_pos hA17, if_pos hA17]; rfl
    rw [if_neg hA17, if_neg hA17]
    by_cases hA18 : address = 0xFF48
    · rw [if_pos hA18, if_pos hA18]; rfl
    rw [if_neg hA18, if_neg hA18]
    by_cases hA19 : address = 0xFF49
    · rw [if_pos hA19, if_pos hA19]; rfl
    rw [if_neg hA19, if_neg hA19]
    by_cases hA20 : address = 0xFF4A
    · rw [if_pos hA20, if_pos hA20]; rfl
    rw [if_neg hA20, if_neg hA20]
    by_cases hA21 : address = 0xFF4B
    · rw [if_pos hA21, if_pos hA21]; rfl
    rw [if_neg hA21, if_neg hA21]
    by_cases hA22 : 0xFF80 ≤ address ∧ address ≤ 0xFFFE
    · rw [if_pos hA22, if_pos hA22]; rfl
    rw [if_neg hA22, if_neg hA22]
    by_cases hA23 : address = 0xFFFF
    · rw [if_pos hA23, if_pos hA23]; rfl
    rw [if_neg hA23, if_neg hA23]
    rfl
  refine ⟨h1, ?_⟩
  rw [h1]
  cases hb : busReadByte s address
  · rfl
  · simp [h1, hb]

/-- Reading IE over the bus. -/
theorem busReadByte_ie (s : Bus) : busReadByte s 0xFFFF = some s.interrupts.ie := rfl

/-- Reading IF over the bus. -/
theorem busReadByte_iflag (s : Bus) : busReadByte s 0xFF0F = some s.interrupts.iflag := rfl

/-- Writing IF over the bus. -/
theorem busWriteByte_iflag (s : Bus) (v : Nat) :
    busWriteByte s 0xFF0F v = some { s with interrupts.iflag := v } := rfl

/-- If a byte has a set bit among bits 0–4, its trailing-zero count is
at most 4. -/
theorem trailingZeros8_le_four (t : Nat) (h : t &&& 31 ≠ 0) : trailingZeros8 t ≤ 4 := by
  unfold trailingZeros8
  by_cases h0 : t.testBit 0
  · simp [h0]
  by_cases h1 : t.testBit 1
  · simp [h0, h1]
  by_cases h2 : t.testBit 2
  · simp [h0, h1, h2]
  by_cases h3 : t.testBit 3
  · simp [h0, h1, h2, h3]
  by_cases h4 : t.testBit 4
  · simp [h0, h1, h2, h3, h4]
  exfalso
  apply h
  apply Nat.eq_of_testBit_eq
  intro i
  rw [Nat.testBit_land, Nat.zero_testBit]
  rcases lt_or_ge i 5 with hi | hi
  · interval_cases i <;> simp [h0, h1, h2, h3, h4]
  · have h31 : Nat.testBit 31 i = false := Nat.testBit_lt_two_pow (by
      calc (31 : Nat) < 2 ^ 5 := by norm_num
        _ ≤ 2 ^ i := Nat.pow_le_pow_right (by norm_num) hi)
    simp [h31]

/-- The vector table on indices 0–4, in closed form. -/
theorem interruptVector_le_four (n : Nat) (h : n ≤ 4) :
    interruptVector n = some (0x40 + 8 * n) := by
  interval_cases n <;> rfl

/-- A byte with a set bit among bits 0–4 is nonzero. -/
theorem ne_zero_of_low_bits (t : Nat) (h : t &&& 31 ≠ 0) : t ≠ 0 := by
  intro h0
  subst h0
  simp at h

/-- The index of the interrupt `handle_interrupts` dispatches: the
lowest set bit of IE & IF. -/
def dispatchBit (bus : Bus) : Nat :=
  trailingZeros8 (bus.interrupts.ie &&& bus.interrupts.iflag)

/-- The bus with IF replaced. -/
def busWithIF (bus : Bus) (v : Nat) : Bus :=
  { bus with interrupts.iflag := v }

/-- The IF byte after the dispatched bit is cleared. -/
def clearedIF (bus : Bus) : Nat :=
  setBit bus.interrupts.iflag (dispatchBit bus) false

/-- Claim C2 counterexample.  With IME set, IE = 0x04 and IF = 0x05,
the lowest set bit of IF is bit 0 (VBlank, vector 0x40) — but the
dispatched interrupt is bit 2 of IE & IF (Timer): PC becomes 0x50 and
IF becomes 0x01, so "clears the lowest set bit of IF" and "the vector
for that bit" are wrong as stated. -/
theorem interrupt_dispatch_lowest_if_bit_cex :
    (cpuStep (fun _ _ _ => none) cpuW (busFor 0x04 0x05)).map
        (fun r => (r.1, r.2.1.registers.pc)) = some (16, 0x50)
    ∧ (cpuStep (fun _ _ _ => none) cpuW (busFor 0x04 0x05)).bind
        (fun r => busReadByte r.2.2 0xFF0F) = some 0x01
    ∧ ((0x50 : Nat) ≠ 0x40 ∧ (0x01 : Nat) ≠ 0x04) := by
  refine ⟨rfl, rfl, by norm_num⟩

set_option maxRecDepth 8000 in
/-- Claim C2 (amended).  With IME true and IE & IF nonzero in bits
0–4, `CPU::step` — before any fetch — clears IME, clears the lowest set
bit of IE & IF (not of IF alone) in IF, pushes PC with SP
predecremented by 2, jumps to that bit's vector `0x40 + 8·n`, and
returns 16 cycles; when IME is false and the CPU is not halted, the
pending-interrupt check dispatches nothing and leaves all state
unchanged. -/
theorem interrupt_dispatch_amended
    (execute : Nat → CPUState → Bus → Option (Nat × CPUState × Bus))
    (cpu : CPUState) (bus : Bus)
    (h1 : cpu.ime = true)
    (h2 : (bus.interrupts.ie &&& bus.interrupts.iflag) &&& 31 ≠ 0) :
    cpuStep execute cpu bus =
      (cpuPush { cpu with halt := false, ime := false } (busWithIF bus (clearedIF bus))
          cpu.registers.pc).map
        (fun p => (16, { p.1 with registers.pc := 0x40 + 8 * dispatchBit bus }, p.2))
    ∧ (∀ p, cpuPush { cpu with halt := false, ime := false } (busWithIF bus (clearedIF bus))
          cpu.registers.pc = some p →
        p.1.registers.sp = (cpu.registers.sp + 0x10000 - 2) % 0x10000)
    ∧ (∀ cpu2 : CPUState, cpu2.ime = false → cpu2.halt = false →
        handleInterrupts cpu2 bus = some (false, cpu2, bus)) := by
  have htz : trailingZeros8 (bus.interrupts.ie &&& bus.interrupts.iflag) ≤ 4 :=
    trailingZeros8_le_four _ h2
  have hnz := ne_zero_of_low_bits _ h2
  refine ⟨?_, ?_, ?_⟩
  · have hh : handleInterrupts cpu bus =
        (cpuPush { cpu with halt := false, ime := false } (busWithIF bus (clearedIF bus))
            cpu.registers.pc).bind
          (fun pair => some (true, { pair.1 with registers.pc := 0x40 + 8 * dispatchBit bus },
            pair.2)) := by
      unfold handleInterrupts
      rw [h1]
      simp only [Bool.not_true, Bool.false_and, Bool.false_eq_true, if_false,
        busReadByte_ie, busReadByte_iflag, Option.bind_eq_bind, Option.some_bind]
      rw [if_neg hnz]
      rw [show busWriteByte bus 0xFF0F (setBit bus.interrupts.iflag
          (trailingZeros8 (bus.interrupts.ie &&& bus.interrupts.iflag)) false) =
          some (busWithIF bus (clearedIF bus)) from rfl]
      simp only [Option.bind_eq_bind, Option.some_bind, interruptVector_le_four _ htz]
      rfl
    unfold cpuStep
    rw [hh]
    cases hcp : cpuPush { cpu with halt := false, ime := false } (busWithIF bus (clearedIF bus))
        cpu.registers.pc <;> rfl
  · intro p hp
    unfold cpuPush at hp
    rw [Option.map_eq_some'] at hp
    obtain ⟨b, _, hb⟩ := hp
    rw [← hb]
  · intro cpu2 hime hhalt
    unfold handleInterrupts
    rw [hime, hhalt]
    rfl

/-- Claim C2 amended, witness: IME on, IE = 0x04, IF = 0x05 — the
dispatch equation at a concrete state. -/
theorem interrupt_dispatch_amended_witness :
    cpuStep (fun _ _ _ => none) cpuW (busFor 0x04 0x05) =
      (cpuPush { cpuW with halt := false, ime := false }
          (busWithIF (busFor 0x04 0x05) (clearedIF (busFor 0x04 0x05)))
          cpuW.registers.pc).map
        (fun p => (16, { p.1 with
            registers.pc := 0x40 + 8 * dispatchBit (busFor 0x04 0x05) }, p.2)) :=
  (interrupt_dispatch_amended (fun _ _ _ => none) cpuW (busFor 0x04 0x05) rfl (by decide)).1

/-- A bus read of a WRAM address returns the stored byte. -/
theorem busReadByte_wram (s : Bus) (off : Nat) (h : off < 0x2000) :
    busReadByte s (0xC000 + off) = some (s.wram off) := by
  unfold busReadByte
  rw [if_neg (by omega), if_neg (by omega), if_pos (by omega)]
  simp [show 0xC000 + off - 0xC000 = off from by omega]

/-- A bus write to an OAM address while the PPU is in HBlank or VBlank
stores the byte in OAM (and refreshes the sprite cache), leaving WRAM
and the mode unchanged. -/
theorem busWriteByteNoDMA_oam (s : Bus) (off v : Nat) (hoff : off < 160)
    (hm : s.video.mode = Mode.hblank ∨ s.video.mode = Mode.vblank) :
    ∃ s', busWriteByteNoDMA s (0xFE00 + off) v = some s'
      ∧ s'.wram = s.wram ∧ s'.video.mode = s.video.mode
      ∧ s'.video.oam = Function.update s.video.oam off v := by
  have hmode : ¬ (s.video.mode = Mode.oamread ∨ s.video.mode = Mode.vramread) := by
    rcases hm with hm | hm <;> rw [hm] <;> simp
  unfold busWriteByteNoDMA
  rw [if_neg (by omega), if_pos (by omega)]
  unfold videoWriteByte
  rw [if_neg (by omega), if_pos (by omega), if_neg hmode]
  unfold writeOam
  rw [show 0xFE00 + off - 0xFE00 = off from by omega]
  simp only [Option.map_map]
  have h4 : off % 4 < 4 := Nat.mod_lt _ (by norm_num)
  rcases hm4 : off % 4 with _ | _ | _ | _ | k
  · exact ⟨_, rfl, rfl, rfl, rfl⟩
  · exact ⟨_, rfl, rfl, rfl, rfl⟩
  · exact ⟨_, rfl, rfl, rfl, rfl⟩
  · exact ⟨_, rfl, rfl, rfl, rfl⟩
  · omega

/-- The OAM-DMA loop from WRAM 0xC000: after the remaining iterations,
OAM holds the WRAM bytes at the already-copied offsets; WRAM and the
PPU mode are untouched. -/
theorem dmaLoop_oam (w : Nat → Nat) :
    ∀ k off s, off + k = 160 → s.wram = w →
      (s.video.mode = Mode.hblank ∨ s.video.mode = Mode.vblank) →
      ∃ s', dmaLoop 0xC000 off k s = some s'
        ∧ s'.wram = w ∧ s'.video.mode = s.video.mode
        ∧ (∀ i, i < 160 → s'.video.oam i = if off ≤ i then w i else s.video.oam i) := by
  intro k
  induction k with
  | zero =>
    intro off s hsum hw hm
    refine ⟨s, rfl, hw, rfl, ?_⟩
    intro i hi
    rw [if_neg (by omega)]
  | succ k ih =>
    intro off s hsum hw hm
    obtain ⟨s1, hw1, hwram1, hmode1, hoam1⟩ :=
      busWriteByteNoDMA_oam s off (w off) (by omega) hm
    obtain ⟨s', h1, h2, h3, h4⟩ := ih (off + 1) s1 (by omega) (by rw [hwram1, hw])
      (by rw [hmode1]; exact hm)
    refine ⟨s', ?_, h2, by rw [h3, hmode1], ?_⟩
    · simp only [dmaLoop, Option.bind_eq_bind]
      rw [busReadByte_wram s off (by omega), hw, Option.some_bind, hw1, Option.some_bind]
      exact h1
    · intro i hi
      rw [h4 i hi, hoam1]
      by_cases hoi : off + 1 ≤ i
      · rw [if_pos hoi, if_pos (by omega)]
      · rw [if_neg hoi]
        by_cases heq : i = off
        · subst heq
          rw [if_pos (by omega), Function.update_same]
        · rw [if_neg (by omega), Function.update_noteq heq]

/-- Claim C5 (amended).  A bus write of 0xC0 to 0xFF46 performs 160 bus
reads from 0xC000+i and bus writes to 0xFE00+i.  The OAM stores are
mode-gated: when the PPU is in HBlank or VBlank the copy succeeds and
OAM byte i equals WRAM byte i for every i < 160 (in particular i when
WRAM holds byte i at offset i); during OAMRead or VRAMRead the PPU
ignores the writes. -/
theorem oam_dma_amended (s : Bus)
    (hm : s.video.mode = Mode.hblank ∨ s.video.mode = Mode.vblank) :
    ∃ s', busWriteByte s 0xFF46 0xC0 = some s'
      ∧ (∀ i, i < 160 → s'.video.oam i = s.wram i)
      ∧ s'.wram = s.wram ∧ s'.video.mode = s.video.mode := by
  obtain ⟨s', h1, h2, h3, h4⟩ := dmaLoop_oam s.wram 160 0 s rfl rfl hm
  refine ⟨s', ?_, ?_, h2, h3⟩
  · show dmaLoop (0xC0 % 256 * 256) 0 160 s = some s'
    exact h1
  · intro i hi
    rw [h4 i hi, if_pos (Nat.zero_le i)]

/-- A bus whose WRAM holds byte `i % 256` at offset `i`, with the PPU
in its initial OAMRead mode. -/
def busDMA : Bus :=
  { cartridge := { rom := { data := fun _ => 0, size := 0 }, mbc := MBC.mbc0 },
    wram := fun i => i % 256, serial := serialNew, timer := timerNew, video := videoNew,
    interrupts := interruptsNew, hram := fun _ => 0 }

set_option maxRecDepth 100000 in
/-- Claim C5 counterexample.  In the PPU's initial mode (OAMRead) the
DMA write to 0xFF46 completes but every OAM store is ignored: with WRAM
byte i at offset i, OAM byte 5 is still 0 afterwards, not 5. -/
theorem oam_dma_mode_gated_cex :
    (busWriteByte busDMA 0xFF46 0xC0).map (fun s => s.video.oam 5) = some 0
    ∧ ((0 : Nat) ≠ 5) :=
  ⟨rfl, by norm_num⟩

/-- Claim C5 amended, witness: with the PPU in HBlank and WRAM byte i
at offset i, the DMA from 0xC000 lands in OAM. -/
theorem oam_dma_amended_witness :
    ∃ s', busWriteByte { busDMA with video.mode := Mode.hblank } 0xFF46 0xC0 = some s'
      ∧ (∀ i, i < 160 →
          s'.video.oam i = ({ busDMA with video.mode := Mode.hblank } : Bus).wram i)
      ∧ s'.wram = ({ busDMA with video.mode := Mode.hblank } : Bus).wram
      ∧ s'.video.mode = ({ busDMA with video.mode := Mode.hblank } : Bus).video.mode :=
  oam_dma_amended { busDMA with video.mode := Mode.hblank } (Or.inl rfl)

end GB
